import Mathlib

/-!
Verification development for the TheMovieDb metadata provider
(`couchpotato/core/media/movie/providers/info/themoviedb.py`).

The Python code is shallowly embedded: JSON/Python values become the
inductive `PyVal`, Python truthiness becomes `PyVal.truthy`, attribute and
subscript access become `Except`-valued helpers raising the exception kind
the interpreter would raise, and the two remote services (`getJsonData`
behind `request`, and the classification endpoint) become explicit oracles.
Every remote request a public operation performs is recorded in a `Call`
trace so that "no network call" / "at most N entries fetched" statements
can be proved about the trace.
-/

/-- Embedding of the Python/JSON values that flow through the module:
`None`, booleans, integers, (unicode) strings, lists, and string-keyed
dicts (JSON objects decoded by `getJsonData`). -/
inductive PyVal where
  | none : PyVal
  | bool : Bool → PyVal
  | int : Int → PyVal
  | str : String → PyVal
  | list : List PyVal → PyVal
  | dict : List (String × PyVal) → PyVal

/-- Exception kinds raised by the embedded operations: `KeyError` from
`d[k]`, `AttributeError` from `.get`/`.lower`/`.append` on a value lacking
the attribute, `TypeError` from iteration/`in`/`+` misuse, `IndexError`
from sequence indexing, and `SyntaxError` (caught by `search`, never
actually raised by any embedded operation, mirroring the dead except
branch in the source). -/
inductive PyErr where
  | keyError : String → PyErr
  | attributeError : PyErr
  | typeError : PyErr
  | indexError : PyErr
  | syntaxError : PyErr
deriving DecidableEq

/-- Python truthiness: `None`, `False`, `0`, `''`, `[]`, and the empty
dict are falsy; everything else is truthy. -/
def PyVal.truthy : PyVal → Bool
  | .none => false
  | .bool b => b
  | .int n => decide (n ≠ 0)
  | .str s => decide (s ≠ "")
  | .list l => !l.isEmpty
  | .dict d => !d.isEmpty

mutual

/-- Structural equality test on embedded values. On the values that reach
the `in`/`not in` comparisons of this module (strings) it agrees with
Python equality. -/
def pyValBeq : PyVal → PyVal → Bool
  | .none, .none => true
  | .bool a, .bool b => a == b
  | .int a, .int b => a == b
  | .str a, .str b => a == b
  | .list a, .list b => pyListBeq a b
  | .dict a, .dict b => pyDictBeq a b
  | _, _ => false

/-- Elementwise equality test on lists of embedded values. -/
def pyListBeq : List PyVal → List PyVal → Bool
  | [], [] => true
  | x :: xs, y :: ys => pyValBeq x y && pyListBeq xs ys
  | _, _ => false

/-- Entrywise equality test on embedded dicts. -/
def pyDictBeq : List (String × PyVal) → List (String × PyVal) → Bool
  | [], [] => true
  | (k1, v1) :: xs, (k2, v2) :: ys => k1 == k2 && pyValBeq v1 v2 && pyDictBeq xs ys
  | _, _ => false

end

mutual

/-- Python repr of a value (used by `str()` on containers). String quotes
are rendered as in Python 2 repr of a unicode string. -/
def pyRepr : PyVal → String
  | .none => "None"
  | .bool b => if b then "True" else "False"
  | .int n => toString n
  | .str s => "u\x27" ++ s ++ "\x27"
  | .list l => "[" ++ pyReprList l ++ "]"
  | .dict d => "\x7b" ++ pyReprDict d ++ "\x7d"

/-- Comma-separated reprs of list elements. -/
def pyReprList : List PyVal → String
  | [] => ""
  | [x] => pyRepr x
  | x :: y :: xs => pyRepr x ++ ", " ++ pyReprList (y :: xs)

/-- Comma-separated reprs of dict entries. -/
def pyReprDict : List (String × PyVal) → String
  | [] => ""
  | [(k, v)] => "u\x27" ++ k ++ "\x27: " ++ pyRepr v
  | (k, v) :: y :: xs => "u\x27" ++ k ++ "\x27: " ++ pyRepr v ++ ", " ++ pyReprDict (y :: xs)

end

/-- Python `str()` / `'%s' % v`: identity on strings, `repr` otherwise
(in particular `str(None) = "None"`). -/
def pyStr : PyVal → String
  | .str s => s
  | v => pyRepr v

theorem pyValBeq_refl : ∀ x : PyVal, pyValBeq x x = true := by
  have H : ∀ n, (∀ x : PyVal, sizeOf x ≤ n → pyValBeq x x = true) := by
    intro n
    induction n with
    | zero =>
      intro x hx
      exfalso
      cases x <;> simp at hx
    | succ n ih =>
      intro x hx
      cases x with
      | none => rfl
      | bool b => simp [pyValBeq]
      | int m => simp [pyValBeq]
      | str s => simp [pyValBeq]
      | list l =>
        simp only [pyValBeq]
        have hl : sizeOf l ≤ n := by simp at hx; omega
        clear hx
        induction l with
        | nil => rfl
        | cons a as ihl =>
          simp only [pyListBeq]
          have ha : sizeOf a ≤ n := by simp at hl; omega
          have has : sizeOf as ≤ n := by simp at hl; omega
          rw [ih a ha, ihl has]
          rfl
      | dict d =>
        simp only [pyValBeq]
        have hd : sizeOf d ≤ n := by simp at hx; omega
        clear hx
        induction d with
        | nil => rfl
        | cons a as ihd =>
          obtain ⟨k, v⟩ := a
          simp only [pyDictBeq]
          have hv : sizeOf v ≤ n := by simp at hd; omega
          have has : sizeOf as ≤ n := by simp at hd; omega
          rw [ih v hv, ihd has]
          simp
  exact fun x => H (sizeOf x) x le_rfl

/-- Python `v.get(k)` with default `None`: returns the stored value (which
may itself be `None`) on a dict, raises `AttributeError` otherwise. -/
def pyGetE (v : PyVal) (k : String) : Except PyErr PyVal :=
  match v with
  | .dict m => .ok ((m.lookup k).getD PyVal.none)
  | _ => .error .attributeError

/-- Python `v.get(k, d)`: like `pyGetE` but with an explicit default. -/
def pyGetD (v : PyVal) (k : String) (d : PyVal) : Except PyErr PyVal :=
  match v with
  | .dict m => .ok ((m.lookup k).getD d)
  | _ => .error .attributeError

/-- Dict lookup with default, for contexts where the receiver is already
known to be a dict. -/
def lookupD (m : List (String × PyVal)) (k : String) (d : PyVal := PyVal.none) : PyVal :=
  (m.lookup k).getD d

/-- Python `d[k] = v` on a dict: replace the first binding of `k`, or
append a new one. -/
def dictSet (m : List (String × PyVal)) (k : String) (v : PyVal) : List (String × PyVal) :=
  match m with
  | [] => [(k, v)]
  | (k2, v2) :: rest => if k2 = k then (k, v) :: rest else (k2, v2) :: dictSet rest k v

/-- Python `v[k]` with a string subscript: `KeyError` on a dict missing the
key, `TypeError` on other values. -/
def pyIndexV (v : PyVal) (k : String) : Except PyErr PyVal :=
  match v with
  | .dict m =>
      match m.lookup k with
      | some x => .ok x
      | Option.none => .error (.keyError k)
  | _ => .error .typeError

/-- Python `v[i]` with an integer subscript. -/
def pyIndexI (v : PyVal) (i : Nat) : Except PyErr PyVal :=
  match v with
  | .list l =>
      match l.get? i with
      | some x => .ok x
      | Option.none => .error .indexError
  | .str s =>
      match s.data.get? i with
      | some c => .ok (.str (String.mk [c]))
      | Option.none => .error .indexError
  | .dict _ => .error (.keyError (toString i))
  | _ => .error .typeError

/-- Python `x in container`: key membership on dicts, element equality on
lists, substring test on strings, `TypeError` otherwise. -/
def pyInV (x : PyVal) (container : PyVal) : Except PyErr Bool :=
  match container with
  | .list l => .ok (l.any fun y => pyValBeq y x)
  | .dict m =>
      .ok (match x with
           | .str s => m.any fun p => p.1 == s
           | _ => false)
  | .str s =>
      match x with
      | .str t => .ok (decide ((s.splitOn t).length ≠ 1))
      | _ => .error .typeError
  | _ => .error .typeError

/-- Python iteration `for x in v`: elements of a list, characters of a
string, keys of a dict; `TypeError` on non-iterables. -/
def pyIter (v : PyVal) : Except PyErr (List PyVal) :=
  match v with
  | .list l => .ok l
  | .str s => .ok (s.data.map fun c => .str (String.mk [c]))
  | .dict m => .ok (m.map fun p => .str p.1)
  | _ => .error .typeError

/-- Python slice `v[a:b]`: defined on lists and strings, `TypeError`
otherwise (string slices yield one-character strings here since the result
is only ever iterated). -/
def pySlice (v : PyVal) (a b : Nat) : Except PyErr (List PyVal) :=
  match v with
  | .list l => .ok ((l.drop a).take (b - a))
  | .str s => .ok (((s.data.drop a).take (b - a)).map fun c => .str (String.mk [c]))
  | _ => .error .typeError

/-- Python `s.lower()` on a string: character-wise lowercasing. -/
def strLower (s : String) : String :=
  String.mk (s.data.map Char.toLower)

/-- Python `v.lower()`: defined on strings, `AttributeError` otherwise. -/
def pyLower (v : PyVal) : Except PyErr PyVal :=
  match v with
  | .str s => .ok (.str (strLower s))
  | _ => .error .attributeError

/-- Python `a + b` as used in the `search` result logging expression:
string/list concatenation and integer addition; mixed operands raise
`TypeError`. -/
def pyAdd (a b : PyVal) : Except PyErr PyVal :=
  match a, b with
  | .str x, .str y => .ok (.str (x ++ y))
  | .int x, .int y => .ok (.int (x + y))
  | .list x, .list y => .ok (.list (x ++ y))
  | _, _ => .error .typeError

/-- Python slice `s[:n]` on a string: the first `n` characters. -/
def strTake (s : String) (n : Nat) : String :=
  String.mk (s.data.take n)

/-- Modelled from the spec: `toUnicode` (an external string-normalization
helper, not part of this file of the repository) renders its argument as a
text string. On an absent value it yields the literal string "None", the
same convention the spec records for `released` ("string date or the
literal `None` if absent"). -/
def toUnicode (v : PyVal) : PyVal :=
  .str (pyStr v)

/-- Decimal digit-string value: `some` of the numeral when the character
list is a nonempty run of decimal digits, `none` otherwise. -/
def digitsToNat (cs : List Char) : Option Nat :=
  if !cs.isEmpty && cs.all Char.isDigit then
    some (cs.foldl (fun a c => a * 10 + (c.toNat - 48)) 0)
  else
    Option.none

/-- Modelled from the spec: integer parse of a release-date prefix. The
spec says the derived year is "the integer `d[0:4]`" and that an
unparseable date is treated as absent, so a nonempty all-digit string
parses to its decimal value and anything else fails. -/
def pyIntOfString (s : String) : Option Int :=
  (digitsToNat s.data).map Int.ofNat

/-- Modelled from the spec: `tryInt(value, default)` (external helper
`couchpotato.core.helpers.variable.tryInt`, not part of this file of the
repository) converts a value to an integer, returning the default when
conversion fails ("Release date unparseable/1900 | Year treated as
absent"). -/
def tryInt (v fallback : PyVal) : PyVal :=
  match v with
  | .int n => .int n
  | .bool b => .int (if b then 1 else 0)
  | .str s =>
      match pyIntOfString s with
      | some n => .int n
      | Option.none => fallback
  | _ => fallback

/-- The year derivation of `parseMovie` (lines 127-131):
`year = str(movie.get('release_date') or '')[:4]`, then `year = None` when
the release date is falsy, the prefix is "1900", or the prefix lowercases
to "none". `rd` is the value of `movie.get('release_date')`. -/
def deriveYear (rd : PyVal) : Option String :=
  let y := strTake (pyStr (if rd.truthy then rd else .str "")) 4
  if ¬rd.truthy ∨ y = "1900" ∨ strLower y = "none" then Option.none else some y

/-- The `year` attribute value `tryInt(year, None)` (line 156) fed by
`deriveYear`. -/
def derivedYearVal (rd : PyVal) : PyVal :=
  match deriveYear rd with
  | Option.none => tryInt PyVal.none PyVal.none
  | some y => tryInt (.str y) PyVal.none

/-- `TheMovieDb.getImage` (lines 179-188): start from `image_url = ''`,
fetch `movie.get(type + '_path')` and build
`secure_base_url + size + str(path)`; any exception inside the `try` (an
`AttributeError` from `.get` on a non-dict) leaves the initial empty
string. Note the source does not guard a missing path: `.get` then yields
`None` and the URL is built with the text "None" appended. -/
def getImage (base : String) (movie : PyVal) (ty size : String) : String :=
  match pyGetE movie (ty ++ "_path") with
  | .ok path => base ++ size ++ pyStr path
  | .error _ => ""

/-- `TheMovieDb.getMultImages` (lines 190-199): walk
`movie.get('images', {}).get(type, [])[1:5]` building file URLs; any
exception while obtaining the slice is caught and yields the URLs
collected so far (necessarily none, since the per-element `getImage`
catches its own failures). -/
def getMultImages (base : String) (movie : PyVal) (ty size : String) : List String :=
  let attempt : Except PyErr (List PyVal) := do
    let im ← pyGetD movie "images" (.dict [])
    let arr ← pyGetD im ty (.list [])
    pySlice arr 1 5
  match attempt with
  | .ok items => items.map fun img => getImage base img "file" size
  | .error _ => []

/-- Genre extraction (lines 121-125): `[genre.get('name') for genre in
movie.get('genres', [])]` with any exception caught and replaced by the
empty list. -/
def extractGenres (movie : PyVal) : List PyVal :=
  let attempt : Except PyErr (List PyVal) := do
    let gs ← pyGetD movie "genres" (.list [])
    let items ← pyIter gs
    items.mapM fun g => pyGetE g "name"
  match attempt with
  | .ok l => l
  | .error _ => []

/-- Cast walk (lines 134-144): `movie.get('casts', {}).get('cast', [])`,
then per entry record `actors[toUnicode(name)] = toUnicode(character)` and
`images['actors'][toUnicode(name)] = getImage(entry, 'profile',
'original')`; a failing entry (a non-dict, whose `.get` raises) is skipped
by the per-entry `try`. The outer `.get` chain and the iteration are not
guarded and propagate their errors. Returns `(actors, images['actors'])`. -/
def extractCast (base : String) (mm : List (String × PyVal)) :
    Except PyErr (List (String × PyVal) × List (String × PyVal)) :=
  match lookupD mm "casts" (.dict []) with
  | .dict cm =>
      match pyIter (lookupD cm "cast" (.list [])) with
      | .error e => .error e
      | .ok items =>
          .ok (items.foldl
            (fun acc ci =>
              match ci with
              | .dict cim =>
                  let key := pyStr (toUnicode (lookupD cim "name"))
                  (dictSet acc.1 key (toUnicode (lookupD cim "character")),
                   dictSet acc.2 key (.str (getImage base ci "profile" "original")))
              | _ => acc)
            ([], []))
  | _ => .error .attributeError

/-- One remote request issued through `TheMovieDb.request`: the API call
path and the (already falsy-filtered) query parameters. -/
structure Call where
  call : String
  params : List (String × PyVal)

/-- Modelled from the spec: `tryUrlencode` (external helper, not part of
this file of the repository) renders the query mapping as `k=v` pairs
joined with `&`. -/
def tryUrlencode (params : List (String × PyVal)) : String :=
  String.intercalate "&" (params.map fun p => p.1 ++ "=" ++ pyStr p.2)

/-- The URL built by `TheMovieDb.request` (line 206):
`http://api.themoviedb.org/3/<call>?api_key=<key><&params><&language>`,
where the encoded parameter string is included only when nonempty. -/
def requestUrl (apiKey language call : String) (params : List (String × PyVal)) : String :=
  let enc := tryUrlencode (params.filter fun p => p.2.truthy)
  "http://api.themoviedb.org/3/" ++ call ++ "?api_key=" ++ apiKey ++
    (if enc ≠ "" then "&" ++ enc else "") ++ "&language=" ++ language

/-- `TheMovieDb.request` (lines 201-216): drop falsy-valued parameters,
issue the fetch (the oracle stands for `getJsonData`, whose failures the
surrounding `try` turns into `None`), then, when a `return_key` is given
and the data is truthy and contains it, unwrap that key. The unwrap uses
`data.get`, so a truthy non-dict datum that passes the `in` test raises
`AttributeError` (not caught here). Returns the result together with the
recorded call. -/
def requestData (data : PyVal) (returnKey : Option String) : Except PyErr PyVal :=
  match returnKey with
  | some k =>
      if data.truthy then
        match pyInV (.str k) data with
        | .error e => .error e
        | .ok true =>
            match data with
            | .dict m => .ok ((m.lookup k).getD PyVal.none)
            | _ => .error .attributeError
        | .ok false => .ok data
      else .ok data
  | Option.none => .ok data

/-- The call/trace wrapper of `TheMovieDb.request`: the single recorded
call carries the falsy-filtered parameters, and the returned data is the
oracle response put through the `return_key` unwrapping. -/
def request (oracle : Call → PyVal) (call : String) (params : List (String × PyVal))
    (returnKey : Option String) : Except PyErr PyVal × List Call :=
  let c : Call := ⟨call, params.filter fun p => p.2.truthy⟩
  (requestData (oracle c) returnKey, [c])

/-- The `movie_data` literal of `parseMovie` (lines 146-161), evaluated on
the fetched payload dict `mm`. `collection` is
`getattr(movie.get('belongs_to_collection'), 'name', None)`: the decoded
JSON value is a dict (or `None`), which has no `name` *attribute*, so
`getattr` always yields the supplied default `None`. -/
def buildMovieData (mm : List (String × PyVal)) (actors actorImages : List (String × PyVal))
    (extraThumbs : List String) (base : String) : List (String × PyVal) :=
  let movie : PyVal := .dict mm
  let poster := getImage base movie "poster" "w154"
  let posterOriginal := getImage base movie "poster" "original"
  let backdropOriginal := getImage base movie "backdrop" "original"
  let rd := lookupD mm "release_date"
  let images : PyVal := .dict [
    ("poster", .list (if poster ≠ "" then [.str poster] else [])),
    ("poster_original", .list (if posterOriginal ≠ "" then [.str posterOriginal] else [])),
    ("backdrop_original", .list (if backdropOriginal ≠ "" then [.str backdropOriginal] else [])),
    ("actors", .dict actorImages),
    ("extra_thumbs", .list (extraThumbs.map PyVal.str))]
  [("type", .str "movie"),
   ("via_tmdb", .bool true),
   ("tmdb_id", lookupD mm "id"),
   ("titles", .list [toUnicode (lookupD mm "title")]),
   ("original_title", toUnicode (lookupD mm "title")),
   ("images", images),
   ("imdb", lookupD mm "imdb_id"),
   ("runtime", lookupD mm "runtime"),
   ("released", .str (pyStr rd)),
   ("year", derivedYearVal rd),
   ("plot", lookupD mm "overview"),
   ("genres", .list (extractGenres movie)),
   ("collection", PyVal.none),
   ("actor_roles", .dict actors)]

/-- Python `movie_data['titles'].append(x)`: look the key up (`KeyError`
when absent), require a list (`AttributeError` otherwise), and store the
extended list back. -/
def pyListAppend (md : List (String × PyVal)) (k : String) (x : PyVal) :
    Except PyErr (List (String × PyVal)) :=
  match md.lookup k with
  | Option.none => .error (.keyError k)
  | some (.list l) => .ok (dictSet md k (.list (l ++ [x])))
  | some _ => .error .attributeError

/-- Lines 164-166: `if movie_data['original_title'] and
movie_data['original_title'] not in movie_data['titles']:
movie_data['titles'].append(...)`. Both subscripts raise `KeyError` when
the falsy-filter dropped the key. -/
def appendOriginal (md : List (String × PyVal)) : Except PyErr (List (String × PyVal)) :=
  match md.lookup "original_title" with
  | Option.none => .error (.keyError "original_title")
  | some ot =>
      if ¬ot.truthy then .ok md
      else
        match md.lookup "titles" with
        | Option.none => .error (.keyError "titles")
        | some ts =>
            match pyInV ot ts with
            | .error e => .error e
            | .ok true => .ok md
            | .ok false => pyListAppend md "titles" ot

/-- Lines 171-175: append each alternative title whose name is truthy, not
already in `titles`, and whose lowercasing is not "none". The `.get` on a
non-dict entry and the `.lower` on a truthy non-string name raise (there
is no `try` around this loop). -/
def addAlternates (md : List (String × PyVal)) :
    List PyVal → Except PyErr (List (String × PyVal))
  | [] => .ok md
  | alt :: rest =>
      match pyGetE alt "title" with
      | .error e => .error e
      | .ok altName =>
          if ¬altName.truthy then addAlternates md rest
          else
            match md.lookup "titles" with
            | Option.none => .error (.keyError "titles")
            | some ts =>
                match pyInV altName ts with
                | .error e => .error e
                | .ok true => addAlternates md rest
                | .ok false =>
                    match pyLower altName with
                    | .error e => .error e
                    | .ok low =>
                        if pyValBeq low (.str "none") then addAlternates md rest
                        else
                          match altName with
                          | PyVal.none => addAlternates md rest
                          | _ =>
                              match pyListAppend md "titles" altName with
                              | .error e => .error e
                              | .ok md2 => addAlternates md2 rest

/-- The tail of `parseMovie` after the falsy filter (lines 163-177):
append the original title when absent from `titles`, then walk
`movie.get('alternative_titles', {}).get('titles', [])` appending
alternates, and return the record. -/
def finishRecord (mm : List (String × PyVal)) (md : List (String × PyVal)) :
    Except PyErr PyVal :=
  match appendOriginal md with
  | .error e => .error e
  | .ok md2 =>
      match lookupD mm "alternative_titles" (.dict []) with
      | .dict am =>
          match pyIter (lookupD am "titles" (.list [])) with
          | .error e => .error e
          | .ok alts => (addAlternates md2 alts).map PyVal.dict
      | _ => .error .attributeError

/-- The normalization pass of `parseMovie` on a fetched payload that is a
dict: assemble `movie_data`, drop falsy-valued attributes
(line 163: `dict((k, v) for k, v in movie_data.items() if v)`), then run
the title-appending tail. The cast walk runs only when `extended`; its
unguarded `.get` chain and iteration may raise. -/
def normalizeDict (base : String) (mm : List (String × PyVal)) (extended : Bool) :
    Except PyErr PyVal :=
  match (if extended then extractCast base mm else .ok ([], [])) with
  | .error e => .error e
  | .ok aa =>
      finishRecord mm
        ((buildMovieData mm aa.1 aa.2
          (if extended then getMultImages base (.dict mm) "backdrops" "original" else [])
          base).filter fun p => p.2.truthy)

/-- Normalization of a truthy fetched payload (lines 107-177). On a truthy
non-dict payload the first unguarded attribute access is
`movie.get('release_date')` (line 127; `getImage` and the genre
comprehension catch their own errors), raising `AttributeError`. -/
def normalizePayload (base : String) (movie : PyVal) (extended : Bool) : Except PyErr PyVal :=
  match movie with
  | .dict mm => normalizeDict base mm extended
  | _ => .error .attributeError

/-- The payload handling of `parseMovie` after the re-fetch: propagate a
fetch-stage exception, return `None` (abort) on a falsy payload, normalize
otherwise. -/
def parseMovieResult (base : String) (dataE : Except PyErr PyVal) (extended : Bool) :
    Except PyErr PyVal :=
  match dataE with
  | .error e => .error e
  | .ok movie =>
      if ¬movie.truthy then .ok PyVal.none
      else normalizePayload base movie extended

/-- `TheMovieDb.parseMovie` (lines 97-177): re-fetch the movie by the
input id (requesting `alternative_titles`, plus `images,casts` when
extended), return `None` on a falsy payload, otherwise normalize. -/
def parseMovie (base : String) (oracle : Call → PyVal) (movie0 : PyVal) (extended : Bool) :
    Except PyErr PyVal × List Call :=
  match pyGetE movie0 "id" with
  | .error e => (.error e, [])
  | .ok idv =>
      let r := request oracle ("movie/" ++ pyStr idv)
        [("append_to_response",
          .str ("alternative_titles" ++ (if extended then ",images,casts" else "")))]
        Option.none
      (parseMovieResult base r.1 extended, r.2)

/-- The guarded search-request stage of `search` (lines 52-61): read the
name/year split (`nameYear` stands for the `scanner.name_year` event
result), issue the search request with `return_key='results'`, and turn
any exception raised inside the `try` into a still-`None` `raw`. -/
def searchRawStage (oracle : Call → PyVal) (nameYear : PyVal) (q : String) (limit : Int) :
    PyVal × List Call :=
  match pyGetD nameYear "name" (.str q), pyGetE nameYear "year" with
  | .ok nm, .ok yr =>
      let r := request oracle "search/movie"
        [("query", nm), ("year", yr),
         ("search_type", .str (if limit > 1 then "ngram" else "phrase"))]
        (some "results")
      ((match r.1 with
        | .ok v => v
        | .error _ => PyVal.none), r.2)
  | _, _ => (PyVal.none, [])

/-- The per-entry loop of `search` (lines 66-76): parse each raw entry
non-extended, keep truthy records, count every processed entry, and break
as soon as the counter equals `limit`. -/
def searchLoop (base : String) (oracle : Call → PyVal) (limit : Int) :
    List PyVal → Int → Except PyErr (List PyVal) × List Call
  | [], _ => (.ok [], [])
  | m :: rest, nr =>
      let r := parseMovie base oracle m false
      match r.1 with
      | .error e => (.error e, r.2)
      | .ok v =>
          let keep := if v.truthy then [v] else []
          if nr + 1 = limit then (.ok keep, r.2)
          else
            let r2 := searchLoop base oracle limit rest (nr + 1)
            ((match r2.1 with
              | .ok l => .ok (keep ++ l)
              | .error e => .error e), r.2 ++ r2.2)

/-- The result-logging expression of `search` (line 78):
`result['titles'][0] + ' (' + str(result.get('year', 0)) + ')'` for each
result; it runs inside the same `try` as the loop, so its exceptions also
escape unless they are `SyntaxError`. -/
def searchLogCheck : List PyVal → Except PyErr Unit
  | [] => .ok ()
  | r :: rest =>
      match pyIndexV r "titles" with
      | .error e => .error e
      | .ok ts =>
          match pyIndexI ts 0 with
          | .error e => .error e
          | .ok t0 =>
              match pyAdd t0 (.str " (") with
              | .error e => .error e
              | .ok s1 =>
                  match pyGetD r "year" (.int 0) with
                  | .error e => .error e
                  | .ok yv =>
                      match pyAdd s1 (.str (pyStr yv)) with
                      | .error e => .error e
                      | .ok s2 =>
                          match pyAdd s2 (.str ")") with
                          | .error e => .error e
                          | .ok _ => searchLogCheck rest

/-- The tail of the guarded parse stage of `search` (lines 66-81) after
the loop: a non-`SyntaxError` failure of the loop or of the logging
expression propagates, `SyntaxError` yields `False`, success yields the
results list. -/
def searchAfterLoop (calls1 : List Call) (lr : Except PyErr (List PyVal) × List Call) :
    Except PyErr PyVal × List Call :=
  match lr.1 with
  | .error e =>
      if e = .syntaxError then (.ok (.bool false), calls1 ++ lr.2)
      else (.error e, calls1 ++ lr.2)
  | .ok results =>
      match searchLogCheck results with
      | .error e =>
          if e = .syntaxError then (.ok (.bool false), calls1 ++ lr.2)
          else (.error e, calls1 ++ lr.2)
      | .ok _ => (.ok (.list results), calls1 ++ lr.2)

/-- The guarded per-entry stage of `search` (lines 63-81): nothing truthy
fetched means the empty result list; otherwise iterate the raw entries
(an iteration failure, like any non-`SyntaxError` below, propagates),
run the parse loop, then the logging expression, and return the results;
a `SyntaxError` anywhere in the stage yields `False`. -/
def searchAfterRaw (base : String) (oracle : Call → PyVal) (limit : Int)
    (rs : PyVal × List Call) : Except PyErr PyVal × List Call :=
  if ¬rs.1.truthy then (.ok (.list []), rs.2)
  else
    match pyIter rs.1 with
    | .error e =>
        if e = .syntaxError then (.ok (.bool false), rs.2) else (.error e, rs.2)
    | .ok items => searchAfterLoop rs.2 (searchLoop base oracle limit items 0)

/-- `TheMovieDb.search` (lines 44-84): return `False` when disabled (empty
API key), fetch the raw result list with all fetch-stage exceptions
swallowed, then run the per-entry stage, which catches only
`SyntaxError`. -/
def search (apiKey base : String) (oracle : Call → PyVal) (nameYear : PyVal)
    (q : String) (limit : Int) : Except PyErr PyVal × List Call :=
  if apiKey = "" then (.ok (.bool false), [])
  else searchAfterRaw base oracle limit (searchRawStage oracle nameYear q limit)

/-- The `result or {}` step of `getInfo` (line 95): a falsy parse result
is replaced by the empty mapping; exceptions propagate. -/
def getInfoResult (r : Except PyErr PyVal) : Except PyErr PyVal :=
  match r with
  | .error e => .error e
  | .ok v => .ok (if v.truthy then v else .dict [])

/-- `TheMovieDb.getInfo` (lines 86-95), trace-recording wrapper: a falsy
identifier returns the empty dict at once with no request; otherwise parse
`{'id': identifier}` and return `result or {}`. -/
def getInfo (base : String) (oracle : Call → PyVal) (identifier : PyVal) (extended : Bool) :
    Except PyErr PyVal × List Call :=
  if ¬identifier.truthy then (.ok (.dict []), [])
  else
    let r := parseMovie base oracle (.dict [("id", identifier)]) extended
    (getInfoResult r.1, r.2)

/-- The classification URL of `isMovie` (lines 222-223):
`urls['is_movie'] % identifier`, with `?adding=1` appended when adding. -/
def isMovieUrl (identifier : PyVal) (adding : Bool) : String :=
  "https://api.couchpota.to/ismovie/" ++ pyStr identifier ++ "/" ++
    (if adding then "?adding=1" else "")

/-- `TheMovieDb.isMovie` (lines 218-230): a falsy identifier returns
(Python `None`); otherwise fetch the classification URL (the oracle stands
for `getJsonData` keyed by URL) and return `data.get('is_movie', True)`
when the body is truthy — which raises `AttributeError` on a truthy
non-dict body — and `True` otherwise. -/
def isMovie (oracle2 : String → PyVal) (identifier : PyVal) (adding : Bool) :
    Except PyErr PyVal :=
  if ¬identifier.truthy then .ok PyVal.none
  else
    let data := oracle2 (isMovieUrl identifier adding)
    if data.truthy then
      match data with
      | .dict m => .ok ((m.lookup "is_movie").getD (.bool true))
      | _ => .error .attributeError
    else .ok (.bool true)

/-- Navigation helper for stating facts about an emitted record: follow a
key path through a successfully returned dict. -/
def lookupPath : Except PyErr PyVal → List String → Option PyVal
  | .ok v, [] => some v
  | .ok (.dict m), k :: ks =>
      match m.lookup k with
      | some x => lookupPath (.ok x) ks
      | Option.none => Option.none
  | _, _ => Option.none

/-- Length of a successfully returned list result, for stating result
counts. -/
def okListLength : Except PyErr PyVal → Option Nat
  | .ok (.list l) => some l.length
  | _ => Option.none

/-- Substring test used to state facts about built URLs. -/
def containsSubstr (s pat : String) : Bool :=
  (List.range (s.data.length + 1)).any fun i =>
    decide ((s.data.drop i).take pat.data.length = pat.data)

theorem char_isDigit_bounds (c : Char) (h : c.isDigit = true) :
    48 ≤ c.toNat ∧ c.toNat ≤ 57 := by
  simp [Char.isDigit] at h
  exact h

theorem char_eq_of_toNat_eq (c d : Char) (h : c.toNat = d.toNat) : c = d :=
  Char.ext (UInt32.ext h)

theorem digitsFold_lt (cs : List Char) :
    ∀ a : Nat, (∀ c ∈ cs, c.isDigit = true) →
      cs.foldl (fun a c => a * 10 + (c.toNat - 48)) a < (a + 1) * 10 ^ cs.length := by
  induction cs with
  | nil =>
      intro a _
      simpa using Nat.lt_succ_self a
  | cons c rest ih =>
      intro a h
      have hc : 48 ≤ c.toNat ∧ c.toNat ≤ 57 :=
        char_isDigit_bounds c (h c (by simp))
      have hrest := ih (a * 10 + (c.toNat - 48)) (fun x hx => h x (by simp [hx]))
      simp only [List.foldl, List.length_cons]
      calc List.foldl (fun a c => a * 10 + (c.toNat - 48)) (a * 10 + (c.toNat - 48)) rest
          < (a * 10 + (c.toNat - 48) + 1) * 10 ^ rest.length := hrest
        _ ≤ ((a + 1) * 10) * 10 ^ rest.length := by
            apply Nat.mul_le_mul_right
            omega
        _ = (a + 1) * 10 ^ (rest.length + 1) := by ring

/-- A digit run of at most 4 characters whose decimal value is 1900 can
only be the four characters 1, 9, 0, 0. -/
theorem digitsToNat_eq_1900 (cs : List Char) (hlen : cs.length ≤ 4)
    (h : digitsToNat cs = some 1900) : cs = ['1', '9', '0', '0'] := by
  unfold digitsToNat at h
  by_cases hg : (!cs.isEmpty && cs.all Char.isDigit) = true
  · rw [if_pos hg] at h
    have hval : cs.foldl (fun a c => a * 10 + (c.toNat - 48)) 0 = 1900 :=
      Option.some.inj h
    have hdig : ∀ c ∈ cs, c.isDigit = true := by
      intro c hc
      have hAnd := (Bool.and_eq_true _ _).mp hg
      exact (List.all_eq_true.mp hAnd.2) c hc
    rcases cs with _ | ⟨a, _ | ⟨b, _ | ⟨c, _ | ⟨d, rest⟩⟩⟩⟩
    · simp at hval
    · have ha := char_isDigit_bounds a (hdig a (by simp))
      simp only [List.foldl_cons, List.foldl_nil] at hval
      omega
    · have ha := char_isDigit_bounds a (hdig a (by simp))
      have hb := char_isDigit_bounds b (hdig b (by simp))
      simp only [List.foldl_cons, List.foldl_nil] at hval
      omega
    · have ha := char_isDigit_bounds a (hdig a (by simp))
      have hb := char_isDigit_bounds b (hdig b (by simp))
      have hc := char_isDigit_bounds c (hdig c (by simp))
      simp only [List.foldl_cons, List.foldl_nil] at hval
      omega
    · rcases rest with _ | ⟨e, rest2⟩
      · have ha := char_isDigit_bounds a (hdig a (by simp))
        have hb := char_isDigit_bounds b (hdig b (by simp))
        have hc := char_isDigit_bounds c (hdig c (by simp))
        have hd := char_isDigit_bounds d (hdig d (by simp))
        simp only [List.foldl_cons, List.foldl_nil] at hval
        have h1a : a = '1' := char_eq_of_toNat_eq a '1'
          (by rw [show Char.toNat '1' = 49 from rfl]; omega)
        have h1b : b = '9' := char_eq_of_toNat_eq b '9'
          (by rw [show Char.toNat '9' = 57 from rfl]; omega)
        have h1c : c = '0' := char_eq_of_toNat_eq c '0'
          (by rw [show Char.toNat '0' = 48 from rfl]; omega)
        have h1d : d = '0' := char_eq_of_toNat_eq d '0'
          (by rw [show Char.toNat '0' = 48 from rfl]; omega)
        rw [h1a, h1b, h1c, h1d]
      · exfalso
        simp only [List.length_cons] at hlen
        omega
  · rw [if_neg hg] at h
    exact absurd h (by simp)

theorem deriveYear_some (rd : PyVal) (y : String) (h : deriveYear rd = some y) :
    y = strTake (pyStr rd) 4 ∧ rd.truthy = true ∧ y ≠ "1900" ∧ strLower y ≠ "none" := by
  unfold deriveYear at h
  by_cases ht : rd.truthy = true
  · simp only [ht, if_true, not_true, false_or] at h
    by_cases hc : strTake (pyStr rd) 4 = "1900" ∨ strLower (strTake (pyStr rd) 4) = "none"
    · rw [if_pos hc] at h
      exact absurd h (by simp)
    · rw [if_neg hc] at h
      have heq : strTake (pyStr rd) 4 = y := Option.some.inj h
      subst heq
      push_neg at hc
      exact ⟨rfl, ht, hc.1, hc.2⟩
  · simp [ht] at h

theorem derivedYearVal_ne_1900 : ∀ rd : PyVal, derivedYearVal rd ≠ PyVal.int 1900 := by
  intro rd h
  unfold derivedYearVal at h
  cases hdy : deriveYear rd with
  | none =>
      rw [hdy] at h
      exact absurd h (by simp [tryInt])
  | some y =>
      rw [hdy] at h
      obtain ⟨hyeq, ht, hy1900, hnone⟩ := deriveYear_some rd y hdy
      have hlen : y.data.length ≤ 4 := by
        rw [hyeq]
        simpa [strTake] using List.length_take_le 4 _
      have htry : tryInt (.str y) PyVal.none =
          (match pyIntOfString y with
           | some n => PyVal.int n
           | Option.none => PyVal.none) := rfl
      have h3 : tryInt (PyVal.str y) PyVal.none = PyVal.int 1900 := h
      rw [htry] at h3
      cases hp : pyIntOfString y with
      | none =>
          rw [hp] at h3
          exact absurd (h3 : PyVal.none = PyVal.int 1900) (by simp)
      | some n =>
          rw [hp] at h3
          have hn : n = 1900 := by
            have h2 : PyVal.int n = PyVal.int 1900 := h3
            have := PyVal.int.inj h2
            omega
          subst hn
          unfold pyIntOfString at hp
          cases hd : digitsToNat y.data with
          | none =>
              rw [hd] at hp
              exact absurd hp (by simp)
          | some m =>
              rw [hd] at hp
              have hm : m = 1900 := by
                have h4 : some (Int.ofNat m) = some (Int.ofNat 1900) := hp
                exact Int.ofNat.inj (Option.some.inj h4)
              subst hm
              have hchars := digitsToNat_eq_1900 y.data hlen hd
              apply hy1900
              cases y with
              | mk data =>
                  show String.mk data = "1900"
                  rw [show data = ['1', '9', '0', '0'] from hchars]

theorem deriveYear_str (d : String) :
    deriveYear (.str d) =
      if d = "" ∨ strTake d 4 = "1900" ∨ strLower (strTake d 4) = "none" then Option.none
      else some (strTake d 4) := by
  by_cases hd : d = ""
  · subst hd
    rfl
  · unfold deriveYear
    have htr : (PyVal.str d).truthy = true := by simp [PyVal.truthy, hd]
    simp only [htr, if_true, not_true, false_or]
    rw [show pyStr (.str d) = d from rfl]
    by_cases hc : strTake d 4 = "1900" ∨ strLower (strTake d 4) = "none"
    · rw [if_pos hc, if_pos (Or.inr hc)]
    · rw [if_neg hc, if_neg (by
        push_neg at hc ⊢
        exact ⟨hd, hc.1, hc.2⟩)]

theorem derivedYearVal_str (d : String) :
    derivedYearVal (.str d) =
      if d = "" ∨ strTake d 4 = "1900" ∨ strLower (strTake d 4) = "none" then PyVal.none
      else
        match pyIntOfString (strTake d 4) with
        | some n => PyVal.int n
        | Option.none => PyVal.none := by
  unfold derivedYearVal
  rw [deriveYear_str d]
  by_cases hc : d = "" ∨ strTake d 4 = "1900" ∨ strLower (strTake d 4) = "none"
  · rw [if_pos hc, if_pos hc]
    rfl
  · rw [if_neg hc, if_neg hc]
    rfl

/-- C4 (corrected): for a release-date string `d`, the derived year is
absent when `d` is missing, empty, has first-4-characters "1900", or
lowercases to "none"; otherwise it is the integer value of the first 4
characters when they form a decimal numeral and absent otherwise (the
claim asserted an integer unconditionally); and it is never the literal
1900. -/
theorem c4_year_derivation :
    (∀ d : String,
      derivedYearVal (.str d) =
        if d = "" ∨ strTake d 4 = "1900" ∨ strLower (strTake d 4) = "none" then PyVal.none
        else
          match pyIntOfString (strTake d 4) with
          | some n => PyVal.int n
          | Option.none => PyVal.none) ∧
    derivedYearVal PyVal.none = PyVal.none ∧
    (∀ rd : PyVal, derivedYearVal rd ≠ PyVal.int 1900) :=
  ⟨derivedYearVal_str, rfl, derivedYearVal_ne_1900⟩

/-- Witness for C4: a 1900 release date derives no year, 1999 derives the
integer 1999, and the literal 1900 is never produced. -/
theorem c4_year_derivation_witness :
    derivedYearVal (.str "1900-01-01") = PyVal.none ∧
    derivedYearVal (.str "1999-03-31") = PyVal.int 1999 ∧
    derivedYearVal (.str "19001-1-1") ≠ PyVal.int 1900 :=
  ⟨by rw [c4_year_derivation.1 "1900-01-01"]; rfl,
   by rw [c4_year_derivation.1 "1999-03-31"]; rfl,
   c4_year_derivation.2.2 _⟩

/-- Counterexample for C4 as stated: the release date "abcd" is nonempty,
its first four characters are neither "1900" nor "none", yet the derived
year is absent rather than an integer (there is no integer value of
"abcd"). -/
theorem c4_counterexample :
    derivedYearVal (.str "abcd") = PyVal.none ∧
    "abcd" ≠ "" ∧ strTake "abcd" 4 ≠ "1900" ∧ strLower (strTake "abcd" 4) ≠ "none" :=
  ⟨rfl, by decide, by decide, by decide⟩

/-- C2 (code_bug): a payload with `poster_path` absent does not yield an
empty `images.poster`; `movie.get('poster_path')` returns `None` without
raising, `'%s%s%s'` renders it as the text "None", and the malformed URL
`<base>w154None` is truthy, so it is emitted in the poster list. -/
theorem c2_missing_poster_path_builds_malformed_url :
    lookupPath
        (normalizePayload "https://image.tmdb.org/t/p/"
          (.dict [("id", .int 1), ("title", .str "Movie")]) false)
        ["images", "poster"]
      = some (.list [.str "https://image.tmdb.org/t/p/w154None"]) ∧
    getImage "https://image.tmdb.org/t/p/" (.dict [("id", .int 1), ("title", .str "Movie")])
        "poster" "w154"
      = "https://image.tmdb.org/t/p/w154None" :=
  ⟨rfl, rfl⟩

/-- C3 (code_bug): `getattr(movie.get('belongs_to_collection'), 'name',
None)` reads an *attribute* of the decoded JSON dict, which does not
exist, so it always yields the default `None` and the `collection` key is
always dropped — even when `belongs_to_collection.name` is present and
non-empty. -/
theorem c3_collection_always_dropped :
    lookupPath
        (normalizePayload "https://image.tmdb.org/t/p/"
          (.dict [("id", .int 1), ("title", .str "M"),
            ("belongs_to_collection", .dict [("name", .str "The Matrix Collection")])]) false)
        ["type"]
      = some (.str "movie") ∧
    lookupPath
        (normalizePayload "https://image.tmdb.org/t/p/"
          (.dict [("id", .int 1), ("title", .str "M"),
            ("belongs_to_collection", .dict [("name", .str "The Matrix Collection")])]) false)
        ["collection"]
      = Option.none :=
  ⟨rfl, rfl⟩

/-- C10 (confirmed): `request` URL-encodes only parameters with truthy
values — each recorded call carries exactly the truthy-valued subset of
the supplied parameters — and a search whose parsed name/year has no year
sends no `year` parameter: the recorded call and the built URL omit it. -/
theorem c10_request_drops_falsy_params :
    (∀ (oracle : Call → PyVal) (call : String) (ps : List (String × PyVal))
        (rk : Option String) (c : Call), c ∈ (request oracle call ps rk).2 →
        (∀ p ∈ c.params, p.2.truthy = true) ∧ (∀ p ∈ ps, p.2.truthy = true → p ∈ c.params)) ∧
    (search "k" "b" (fun _ => PyVal.none)
        (.dict [("name", .str "Matrix")]) "Matrix 1999" 3).2.map Call.params
      = [[("query", .str "Matrix"), ("search_type", .str "ngram")]] ∧
    containsSubstr
        (requestUrl "k" "de" "search/movie"
          [("query", .str "Matrix"), ("year", PyVal.none), ("search_type", .str "ngram")])
        "year=" = false ∧
    containsSubstr
        (requestUrl "k" "de" "search/movie"
          [("query", .str "Matrix"), ("year", PyVal.none), ("search_type", .str "ngram")])
        "query=Matrix" = true := by
  refine ⟨?_, rfl, by decide, by decide⟩
  intro oracle call ps rk c hc
  have hceq : c = ⟨call, ps.filter fun p => p.2.truthy⟩ := List.mem_singleton.mp hc
  subst hceq
  constructor
  · intro p hp
    have hp2 : p ∈ ps.filter fun p => p.2.truthy := hp
    exact (List.mem_filter.mp hp2).2
  · intro p hp hpt
    show p ∈ ps.filter fun p => p.2.truthy
    exact List.mem_filter.mpr ⟨hp, hpt⟩

/-- Witness for C10: the filter property applied to the concrete search
call of the second conjunct. -/
theorem c10_request_drops_falsy_params_witness :
    ∀ p ∈ Call.params ⟨"search/movie",
        [("query", PyVal.str "Matrix"), ("year", PyVal.none),
         ("search_type", PyVal.str "ngram")].filter fun p => p.2.truthy⟩,
      p.2.truthy = true :=
  (c10_request_drops_falsy_params.1 (fun _ => PyVal.none) "search/movie"
    [("query", PyVal.str "Matrix"), ("year", PyVal.none), ("search_type", PyVal.str "ngram")]
    (some "results") _ (List.mem_singleton.mpr rfl)).1

/-- C9 (corrected): with a falsy identifier `isMovie` returns `None`
(absent, distinct from true/false); with an identifier it returns `False`
exactly when the response is a truthy mapping stating `is_movie = False`;
and it returns `True` whenever the response is missing/empty or is a
mapping lacking `is_movie`. The claim's "lacks the `is_movie` field" case
holds only for mapping responses: a truthy non-mapping response raises
`AttributeError` instead of returning true. -/
theorem c9_isMovie_fail_open :
    (∀ (oracle2 : String → PyVal) (identifier : PyVal) (adding : Bool),
        identifier.truthy = false →
        isMovie oracle2 identifier adding = .ok PyVal.none) ∧
    (∀ (oracle2 : String → PyVal) (identifier : PyVal) (adding : Bool) (v : PyVal),
        identifier.truthy = true →
        isMovie oracle2 identifier adding = .ok v →
        (v = .bool false ↔
          ∃ m, oracle2 (isMovieUrl identifier adding) = .dict m ∧
            (PyVal.dict m).truthy = true ∧ m.lookup "is_movie" = some (.bool false))) ∧
    (∀ (oracle2 : String → PyVal) (identifier : PyVal) (adding : Bool),
        identifier.truthy = true →
        ((oracle2 (isMovieUrl identifier adding)).truthy = false ∨
         ∃ m, oracle2 (isMovieUrl identifier adding) = .dict m ∧
           m.lookup "is_movie" = Option.none) →
        isMovie oracle2 identifier adding = .ok (.bool true)) := by
  refine ⟨?_, ?_, ?_⟩
  · intro o i a hid
    simp [isMovie, hid]
  · intro o i a v hid hv
    simp only [isMovie, hid, not_true, if_false] at hv
    cases hdata : o (isMovieUrl i a) with
    | dict m =>
        rw [hdata] at hv
        by_cases htr : (PyVal.dict m).truthy = true
        · rw [if_pos htr] at hv
          have hv2 : (m.lookup "is_movie").getD (.bool true) = v := Except.ok.inj hv
          constructor
          · intro hfalse
            cases hlk : m.lookup "is_movie" with
            | none =>
                rw [hlk] at hv2
                simp at hv2
                rw [← hv2] at hfalse
                exact absurd hfalse (by simp)
            | some x =>
                rw [hlk] at hv2
                simp at hv2
                exact ⟨m, rfl, htr, by rw [hlk, hv2, hfalse]⟩
          · rintro ⟨m2, hm2, htr2, hlk2⟩
            have hm : m2 = m := by
              have := PyVal.dict.inj hm2
              exact this.symm
            subst hm
            rw [hlk2] at hv2
            simp at hv2
            exact hv2.symm
        · rw [if_neg htr] at hv
          have hv2 : PyVal.bool true = v := Except.ok.inj hv
          constructor
          · intro hfalse
            rw [← hv2] at hfalse
            exact absurd hfalse (by simp)
          · rintro ⟨m2, hm2, htr2, _⟩
            rw [hm2] at htr
            exact absurd htr2 htr
    | none =>
        rw [hdata] at hv
        simp only [PyVal.truthy] at hv
        rw [if_neg (by simp)] at hv
        have hv2 : PyVal.bool true = v := Except.ok.inj hv
        constructor
        · intro hfalse
          rw [← hv2] at hfalse
          exact absurd hfalse (by simp)
        · rintro ⟨m2, hm2, _, _⟩
          exact absurd hm2 (by simp)
    | bool b =>
        rw [hdata] at hv
        by_cases hb : b = true
        · subst hb
          rw [if_pos (show (PyVal.bool true).truthy = true from rfl)] at hv
          exact absurd (hv : Except.error PyErr.attributeError = Except.ok v) (by simp)
        · have hb2 : b = false := by simpa using hb
          subst hb2
          rw [if_neg (by simp [PyVal.truthy])] at hv
          have hv2 : PyVal.bool true = v := Except.ok.inj hv
          constructor
          · intro hfalse
            rw [← hv2] at hfalse
            exact absurd hfalse (by simp)
          · rintro ⟨m2, hm2, _, _⟩
            exact absurd hm2 (by simp)
    | int n =>
        rw [hdata] at hv
        by_cases hn : (PyVal.int n).truthy = true
        · rw [if_pos hn] at hv
          exact absurd hv (by simp)
        · rw [if_neg hn] at hv
          have hv2 : PyVal.bool true = v := Except.ok.inj hv
          constructor
          · intro hfalse
            rw [← hv2] at hfalse
            exact absurd hfalse (by simp)
          · rintro ⟨m2, hm2, _, _⟩
            exact absurd hm2 (by simp)
    | str s =>
        rw [hdata] at hv
        by_cases hn : (PyVal.str s).truthy = true
        · rw [if_pos hn] at hv
          exact absurd hv (by simp)
        · rw [if_neg hn] at hv
          have hv2 : PyVal.bool true = v := Except.ok.inj hv
          constructor
          · intro hfalse
            rw [← hv2] at hfalse
            exact absurd hfalse (by simp)
          · rintro ⟨m2, hm2, _, _⟩
            exact absurd hm2 (by simp)
    | list l =>
        rw [hdata] at hv
        by_cases hn : (PyVal.list l).truthy = true
        · rw [if_pos hn] at hv
          exact absurd hv (by simp)
        · rw [if_neg hn] at hv
          have hv2 : PyVal.bool true = v := Except.ok.inj hv
          constructor
          · intro hfalse
            rw [← hv2] at hfalse
            exact absurd hfalse (by simp)
          · rintro ⟨m2, hm2, _, _⟩
            exact absurd hm2 (by simp)
  · intro o i a hid hcase
    simp only [isMovie, hid, not_true, if_false]
    rcases hcase with hfalsy | ⟨m, hm, hlk⟩
    · rw [if_neg (by rw [hfalsy]; simp)]
    · rw [hm]
      by_cases htr : (PyVal.dict m).truthy = true
      · rw [if_pos htr]
        show Except.ok ((List.lookup "is_movie" m).getD (PyVal.bool true)) =
          Except.ok (PyVal.bool true)
        rw [hlk]
        rfl
      · rw [if_neg htr]

/-- Witness for C9: the spec's own example pair — a mocked endpoint
answering `is_movie: false` yields false, and an endpoint returning no
body yields true (via the theorem's fail-open conjunct). -/
theorem c9_isMovie_fail_open_witness :
    isMovie (fun _ => .dict [("is_movie", .bool false)]) (.str "tt0133093") true
      = .ok (.bool false) ∧
    isMovie (fun _ => PyVal.none) (.str "tt0133093") true = .ok (.bool true) :=
  ⟨rfl, c9_isMovie_fail_open.2.2 (fun _ => PyVal.none) (.str "tt0133093") true rfl (Or.inl rfl)⟩

/-- Counterexample for C9 as stated: a truthy non-mapping response (a
JSON list) lacks the `is_movie` field, yet `isMovie` raises
`AttributeError` from `data.get` rather than returning true. -/
theorem c9_counterexample :
    isMovie (fun _ => .list [.str "x"]) (.str "tt0133093") true = .error .attributeError ∧
    isMovie (fun _ => .list [.str "x"]) (.str "tt0133093") true ≠ .ok (.bool true) :=
  ⟨rfl, fun h =>
    Except.noConfusion (h : Except.error PyErr.attributeError = Except.ok (PyVal.bool true))⟩

theorem finishRecord_ok_dict (mm md : List (String × PyVal)) (v : PyVal)
    (h : finishRecord mm md = .ok v) : ∃ m2, v = .dict m2 := by
  unfold finishRecord at h
  split at h
  · exact absurd h (by simp)
  · split at h
    · split at h
      · exact absurd h (by simp)
      · cases hadd : addAlternates _ _ with
        | error e =>
            rw [hadd] at h
            exact Except.noConfusion (h : Except.error e = Except.ok v)
        | ok md3 =>
            rw [hadd] at h
            exact ⟨md3, (Except.ok.inj (h : Except.ok (PyVal.dict md3) = Except.ok v)).symm⟩
    · exact absurd h (by simp)

theorem normalizeDict_ok_dict (base : String) (mm : List (String × PyVal)) (ext : Bool)
    (v : PyVal) (h : normalizeDict base mm ext = .ok v) : ∃ m2, v = .dict m2 := by
  unfold normalizeDict at h
  split at h
  · exact Except.noConfusion h
  · exact finishRecord_ok_dict _ _ _ h

theorem normalizePayload_ok_dict (base : String) (movie : PyVal) (ext : Bool)
    (v : PyVal) (h : normalizePayload base movie ext = .ok v) : ∃ m2, v = .dict m2 := by
  unfold normalizePayload at h
  split at h
  · exact normalizeDict_ok_dict _ _ _ _ h
  · exact Except.noConfusion h

theorem parseMovie_ok_shape (base : String) (oracle : Call → PyVal) (m0 : PyVal) (ext : Bool)
    (w : PyVal) (h : (parseMovie base oracle m0 ext).1 = .ok w) :
    w = PyVal.none ∨ ∃ md, w = .dict md := by
  unfold parseMovie at h
  split at h
  · exact Except.noConfusion h
  · simp only [request, requestData] at h
    unfold parseMovieResult at h
    split at h
    · exact Except.noConfusion h
    · split at h
      · exact Or.inl (Except.ok.inj h).symm
      · exact Or.inr (normalizePayload_ok_dict _ _ _ _ h)

/-- C8 (confirmed): `getInfo` with a falsy identifier returns the empty
mapping at once and performs no network call; and whenever `getInfo`
returns, the returned value is never `None` — it is always a mapping
(the record, or the empty mapping when data is absent). -/
theorem c8_getInfo_empty_mapping :
    (∀ (base : String) (oracle : Call → PyVal) (ext : Bool) (identifier : PyVal),
        identifier.truthy = false →
        getInfo base oracle identifier ext = (.ok (.dict []), [])) ∧
    (∀ (base : String) (oracle : Call → PyVal) (ext : Bool) (identifier v : PyVal),
        (getInfo base oracle identifier ext).1 = .ok v →
        v ≠ PyVal.none ∧ ∃ m, v = .dict m) := by
  constructor
  · intro base oracle ext identifier hid
    unfold getInfo
    rw [hid]
    rfl
  · intro base oracle ext identifier v h
    unfold getInfo at h
    split at h
    · have hv : PyVal.dict [] = v := Except.ok.inj h
      exact ⟨by rw [← hv]; simp, [], hv.symm⟩
    · have h2 : getInfoResult (parseMovie base oracle
          (.dict [("id", identifier)]) ext).1 = .ok v := h
      unfold getInfoResult at h2
      split at h2
      · exact Except.noConfusion h2
      · rename_i w hw
        have hv : (if w.truthy = true then w else PyVal.dict []) = v := Except.ok.inj h2
        by_cases htr : w.truthy = true
        · rw [if_pos htr] at hv
          subst hv
          rcases parseMovie_ok_shape base oracle _ ext w hw with hnone | ⟨md, hmd⟩
          · rw [hnone] at htr
            exact absurd htr (by simp [PyVal.truthy])
          · exact ⟨by rw [hmd]; simp, md, hmd⟩
        · rw [if_neg htr] at hv
          exact ⟨by rw [← hv]; simp, [], hv.symm⟩

theorem searchLoop_take (base : String) (oracle : Call → PyVal) (limit : Int) :
    ∀ (items : List PyVal) (nr : Int), nr < limit →
      searchLoop base oracle limit items nr
        = searchLoop base oracle limit (items.take (limit - nr).toNat) nr := by
  intro items
  induction items with
  | nil =>
      intro nr _
      simp
  | cons m rest ih =>
      intro nr hnr
      have htk : (limit - nr).toNat = (limit - (nr + 1)).toNat + 1 := by omega
      rw [htk, List.take_succ_cons]
      show searchLoop base oracle limit (m :: rest) nr
        = searchLoop base oracle limit (m :: rest.take (limit - (nr + 1)).toNat) nr
      cases hpm : (parseMovie base oracle m false).1 with
      | error e => simp only [searchLoop, hpm]
      | ok v =>
          by_cases hb : nr + 1 = limit
          · simp only [searchLoop, hpm, if_pos hb]
          · simp only [searchLoop, hpm, if_neg hb]
            have hnr2 : nr + 1 < limit := by omega
            rw [← ih (nr + 1) hnr2]

theorem searchLoop_len (base : String) (oracle : Call → PyVal) (limit : Int) :
    ∀ (items : List PyVal) (nr : Int) (results : List PyVal) (cs : List Call),
      nr < limit →
      searchLoop base oracle limit items nr = (.ok results, cs) →
      results.length ≤ (limit - nr).toNat := by
  intro items
  induction items with
  | nil =>
      intro nr results cs hnr h
      unfold searchLoop at h
      have hres : ([] : List PyVal) = results := Except.ok.inj (congrArg Prod.fst h)
      rw [← hres]
      simp
  | cons m rest ih =>
      intro nr results cs hnr h
      cases hpm : (parseMovie base oracle m false).1 with
      | error e =>
          simp only [searchLoop, hpm] at h
          exact Except.noConfusion (congrArg Prod.fst h)
      | ok v =>
          by_cases hb : nr + 1 = limit
          · simp only [searchLoop, hpm, if_pos hb] at h
            have hres : (if v.truthy = true then [v] else []) = results :=
              Except.ok.inj (congrArg Prod.fst h)
            have hlen : results.length ≤ 1 := by
              rw [← hres]
              split <;> simp
            omega
          · simp only [searchLoop, hpm, if_neg hb] at h
            rcases hEq : searchLoop base oracle limit rest (nr + 1) with ⟨r2a, r2b⟩
            rw [hEq] at h
            cases r2a with
            | error e => exact Except.noConfusion (congrArg Prod.fst h)
            | ok l =>
                have hres : (if v.truthy = true then [v] else []) ++ l = results :=
                  Except.ok.inj (congrArg Prod.fst h)
                have hl : l.length ≤ (limit - (nr + 1)).toNat :=
                  ih (nr + 1) l r2b (by omega) hEq
                have hkeep : (if v.truthy = true then [v] else []).length ≤ 1 := by
                  split <;> simp
                have : results.length ≤ 1 + l.length := by
                  rw [← hres]
                  simp only [List.length_append]
                  omega
                omega

theorem searchAfterLoop_ok_list (calls1 : List Call) (lr : Except PyErr (List PyVal) × List Call)
    (l : List PyVal) (h : (searchAfterLoop calls1 lr).1 = .ok (.list l)) : lr.1 = .ok l := by
  unfold searchAfterLoop at h
  split at h
  · split at h
    · exact absurd (Except.ok.inj h) (by simp)
    · exact Except.noConfusion h
  · rename_i results hres
    split at h
    · split at h
      · exact absurd (Except.ok.inj h) (by simp)
      · exact Except.noConfusion h
    · rw [hres]
      have := Except.ok.inj h
      rw [PyVal.list.inj this]

theorem search_ok_list (apiKey base : String) (oracle : Call → PyVal) (ny : PyVal)
    (q : String) (limit : Int) (l : List PyVal)
    (h : (search apiKey base oracle ny q limit).1 = .ok (.list l)) :
    l = [] ∨ ∃ cs, ∃ items,
      pyIter (searchRawStage oracle ny q limit).1 = .ok items ∧
      searchLoop base oracle limit items 0 = (.ok l, cs) := by
  unfold search at h
  split at h
  · exact absurd (Except.ok.inj h) (by simp)
  · unfold searchAfterRaw at h
    split at h
    · exact Or.inl (PyVal.list.inj (Except.ok.inj h)).symm
    · split at h
      · split at h
        · exact absurd (Except.ok.inj h) (by simp)
        · exact Except.noConfusion h
      · rename_i items hit
        have hlr := searchAfterLoop_ok_list _ _ _ h
        exact Or.inr ⟨(searchLoop base oracle limit items 0).2, items, hit,
          Prod.ext hlr rfl⟩

/-- C5 (corrected): with a positive result limit the per-entry loop never
examines (fetches/parses) entries beyond the limit — it computes the same
result and the same call trace on the input truncated to the limit — and
`search` returns at most `limit` records. The claim as stated is false for
`result_limit = 0` (or negative): the `nr == limit` break never fires and
every entry is fetched and parsed. -/
theorem c5_search_limit (base : String) (oracle : Call → PyVal) (limit : Int)
    (hpos : 1 ≤ limit) :
    (∀ items : List PyVal,
        searchLoop base oracle limit items 0
          = searchLoop base oracle limit (items.take limit.toNat) 0) ∧
    (∀ (apiKey : String) (ny : PyVal) (q : String) (l : List PyVal),
        (search apiKey base oracle ny q limit).1 = .ok (.list l) →
        l.length ≤ limit.toNat) := by
  constructor
  · intro items
    have h := searchLoop_take base oracle limit items 0 (by omega)
    simpa using h
  · intro apiKey ny q l h
    rcases search_ok_list apiKey base oracle ny q limit l h with hnil | ⟨cs, items, hit, hlp⟩
    · rw [hnil]
      simp
    · have h2 := searchLoop_len base oracle limit items 0 l cs (by omega) hlp
      simpa using h2

/-- Witness for C5: the truncation property applied at limit 1 with two
pending entries, plus the result bound at a concrete search. -/
theorem c5_search_limit_witness :
    searchLoop "b" (fun _ => PyVal.none) 1
        [PyVal.dict [("id", PyVal.int 1)], PyVal.dict [("id", PyVal.int 2)]] 0
      = searchLoop "b" (fun _ => PyVal.none) 1
          ([PyVal.dict [("id", PyVal.int 1)], PyVal.dict [("id", PyVal.int 2)]].take
            (1 : Int).toNat) 0 :=
  (c5_search_limit "b" (fun _ => PyVal.none) 1 (by norm_num)).1 _

/-- Oracle for the C5 counterexample: a search returning two ranked hits
and movie payloads for both. -/
def c5oracle : Call → PyVal := fun c =>
  if c.call = "search/movie" then
    .dict [("results", .list [.dict [("id", .int 1)], .dict [("id", .int 2)]])]
  else if c.call = "movie/1" then .dict [("id", .int 1), ("title", .str "A")]
  else if c.call = "movie/2" then .dict [("id", .int 2), ("title", .str "B")]
  else PyVal.none

/-- Counterexample for C5 as stated: with `result_limit = 0` and two
remote hits, `search` normalizes both entries (two records returned) and
issues both per-entry fetches — more than the zero allowed by the claim's
universal quantification over every result limit. -/
theorem c5_counterexample :
    okListLength (search "k" "b" c5oracle (.dict [("name", .str "m")]) "m" 0).1 = some 2 ∧
    (search "k" "b" c5oracle (.dict [("name", .str "m")]) "m" 0).2.map Call.call
      = ["search/movie", "movie/1", "movie/2"] :=
  ⟨rfl, rfl⟩

/-- Witness for C8: a `None` identifier yields the empty mapping with an
empty call trace, and the returned value is a mapping. -/
theorem c8_getInfo_empty_mapping_witness :
    getInfo "b" (fun _ => PyVal.none) PyVal.none true = (.ok (.dict []), []) ∧
    (PyVal.dict [] ≠ PyVal.none ∧ ∃ m, PyVal.dict [] = PyVal.dict m) :=
  ⟨c8_getInfo_empty_mapping.1 "b" (fun _ => PyVal.none) true PyVal.none rfl,
   c8_getInfo_empty_mapping.2 "b" (fun _ => PyVal.none) true PyVal.none (PyVal.dict []) rfl⟩

theorem lookup_dictSet_self (m : List (String × PyVal)) (k : String) (v : PyVal) :
    (dictSet m k v).lookup k = some v := by
  induction m with
  | nil => simp [dictSet, List.lookup]
  | cons p rest ih =>
      obtain ⟨k2, v2⟩ := p
      unfold dictSet
      by_cases hk : k2 = k
      · rw [if_pos hk]
        simp [List.lookup]
      · rw [if_neg hk]
        rw [List.lookup]
        have : (k == k2) = false := by
          simp
          exact fun hh => hk hh.symm
        rw [this]
        exact ih

theorem dictSet_values {P : PyVal → Prop} (m : List (String × PyVal)) (k : String) (v : PyVal)
    (hm : ∀ p ∈ m, P p.2) (hv : P v) : ∀ p ∈ dictSet m k v, P p.2 := by
  induction m with
  | nil =>
      intro p hp
      unfold dictSet at hp
      rw [List.mem_singleton.mp hp]
      exact hv
  | cons q rest ih =>
      obtain ⟨k2, v2⟩ := q
      intro p hp
      unfold dictSet at hp
      by_cases hk : k2 = k
      · rw [if_pos hk] at hp
        rcases List.mem_cons.mp hp with hh | hh
        · rw [hh]; exact hv
        · exact hm p (List.mem_cons_of_mem _ hh)
      · rw [if_neg hk] at hp
        rcases List.mem_cons.mp hp with hh | hh
        · rw [hh]; exact hm (k2, v2) (by simp)
        · exact ih (fun p2 hp2 => hm p2 (List.mem_cons_of_mem _ hp2)) p hh

theorem filter_lookup_step_ne (p : (String × PyVal) → Bool) (k k2 : String) (v : PyVal)
    (l : List (String × PyVal)) (h : (k == k2) = false) :
    (List.filter p ((k2, v) :: l)).lookup k = (List.filter p l).lookup k := by
  rw [List.filter_cons]
  split
  · rw [List.lookup, h]
  · rfl

theorem filter_lookup_step_eq (p : (String × PyVal) → Bool) (k : String) (v : PyVal)
    (l : List (String × PyVal)) :
    (List.filter p ((k, v) :: l)).lookup k
      = if p (k, v) = true then some v else (List.filter p l).lookup k := by
  rw [List.filter_cons]
  split
  · simp [List.lookup]
  · rfl

theorem mem_of_lookup_eq (l : List (String × PyVal)) (k : String) (v : PyVal)
    (h : l.lookup k = some v) : (k, v) ∈ l := by
  induction l with
  | nil => simp [List.lookup] at h
  | cons q rest ih =>
      obtain ⟨k2, v2⟩ := q
      rw [List.lookup] at h
      by_cases hk : (k == k2) = true
      · rw [hk] at h
        have hkk : k = k2 := by simpa using hk
        have hvv : v2 = v := Option.some.inj h
        rw [← hkk, hvv]
        simp
      · rw [Bool.not_eq_true] at hk
        rw [hk] at h
        exact List.mem_cons_of_mem _ (ih h)

theorem filteredMD_lookup_titles (mm actors actorImages : List (String × PyVal))
    (extraThumbs : List String) (base : String) :
    ((buildMovieData mm actors actorImages extraThumbs base).filter
        fun p => p.2.truthy).lookup "titles"
      = some (.list [toUnicode (lookupD mm "title")]) := by
  unfold buildMovieData
  rw [filter_lookup_step_ne _ _ _ _ _ (by decide)]
  rw [filter_lookup_step_ne _ _ _ _ _ (by decide)]
  rw [filter_lookup_step_ne _ _ _ _ _ (by decide)]
  rw [filter_lookup_step_eq]
  rw [if_pos (show PyVal.truthy (.list [toUnicode (lookupD mm "title")]) = true from rfl)]

theorem filteredMD_lookup_original (mm actors actorImages : List (String × PyVal))
    (extraThumbs : List String) (base : String) :
    ((buildMovieData mm actors actorImages extraThumbs base).filter
        fun p => p.2.truthy).lookup "original_title"
      = if (toUnicode (lookupD mm "title")).truthy = true
          then some (toUnicode (lookupD mm "title"))
          else Option.none := by
  unfold buildMovieData
  rw [filter_lookup_step_ne _ _ _ _ _ (by decide)]
  rw [filter_lookup_step_ne _ _ _ _ _ (by decide)]
  rw [filter_lookup_step_ne _ _ _ _ _ (by decide)]
  rw [filter_lookup_step_ne _ _ _ _ _ (by decide)]
  rw [filter_lookup_step_eq]
  by_cases ht : (toUnicode (lookupD mm "title")).truthy = true
  · rw [if_pos ht, if_pos ht]
  · rw [if_neg ht, if_neg ht]
    rw [filter_lookup_step_ne _ _ _ _ _ (by decide)]
    rw [filter_lookup_step_ne _ _ _ _ _ (by decide)]
    rw [filter_lookup_step_ne _ _ _ _ _ (by decide)]
    rw [filter_lookup_step_ne _ _ _ _ _ (by decide)]
    rw [filter_lookup_step_ne _ _ _ _ _ (by decide)]
    rw [filter_lookup_step_ne _ _ _ _ _ (by decide)]
    rw [filter_lookup_step_ne _ _ _ _ _ (by decide)]
    rw [filter_lookup_step_ne _ _ _ _ _ (by decide)]
    rw [filter_lookup_step_ne _ _ _ _ _ (by decide)]
    rfl

/-- Invariant maintained on the record across the title-appending tail of
the normalization: every attribute value is truthy, and the `titles`
attribute is a nonempty, duplicate-free list of strings whose head is the
original title and whose later entries never lowercase to "none". -/
def TitlesOk (t0 : PyVal) (md : List (String × PyVal)) : Prop :=
  (∀ p ∈ md, p.2.truthy = true) ∧
  ∃ ts : List PyVal,
    md.lookup "titles" = some (.list ts) ∧
    ts.head? = some t0 ∧
    (∀ t ∈ ts, ∃ s, t = .str s) ∧
    ts.Nodup ∧
    (∀ t ∈ ts.drop 1, ∃ s, t = .str s ∧ strLower s ≠ "none")

theorem appendOriginal_of_singleton (md : List (String × PyVal)) (t0 : PyVal)
    (hot : ∀ v, md.lookup "original_title" = some v → v = t0)
    (hts : md.lookup "titles" = some (.list [t0])) (md2 : List (String × PyVal))
    (h : appendOriginal md = .ok md2) : md2 = md := by
  unfold appendOriginal at h
  split at h
  · exact Except.noConfusion h
  · rename_i ot hlk
    have hoteq : ot = t0 := hot ot hlk
    rw [hoteq] at h
    split at h
    · exact (Except.ok.inj h).symm
    · split at h
      · exact Except.noConfusion h
      · rename_i ts hts2
        rw [hts] at hts2
        have htseq : PyVal.list [t0] = ts := Option.some.inj hts2
        split at h
        · exact Except.noConfusion h
        · exact (Except.ok.inj h).symm
        · rename_i hin
          exfalso
          rw [← htseq] at hin
          have hrefl : pyInV t0 (.list [t0]) = .ok true := by
            show Except.ok ([t0].any fun y => pyValBeq y t0) = Except.ok true
            rw [show ([t0].any fun y => pyValBeq y t0) = true by
              simp [List.any]
              exact pyValBeq_refl t0]
          rw [hrefl] at hin
          exact Bool.noConfusion (Except.ok.inj hin)

theorem addAlternates_preserves (t0 : PyVal) :
    ∀ (alts : List PyVal) (md md2 : List (String × PyVal)),
      addAlternates md alts = .ok md2 → TitlesOk t0 md → TitlesOk t0 md2 := by
  intro alts
  induction alts with
  | nil =>
      intro md md2 h hinv
      rw [← Except.ok.inj (h : Except.ok md = Except.ok md2)]
      exact hinv
  | cons alt rest ih =>
      intro md md2 h hinv
      unfold addAlternates at h
      split at h
      · exact Except.noConfusion h
      · rename_i altName hget
        split at h
        · exact ih md md2 h hinv
        · split at h
          · exact Except.noConfusion h
          · rename_i ts hts
            split at h
            · exact Except.noConfusion h
            · exact ih md md2 h hinv
            · rename_i hin
              split at h
              · exact Except.noConfusion h
              · rename_i low hlow
                split at h
                · exact ih md md2 h hinv
                · rename_i hlowne
                  split at h
                  · exact ih md md2 h hinv
                  · split at h
                    · exact Except.noConfusion h
                    · rename_i md3 happ
                      apply ih _ _ h
                      -- altName is a string: pyLower succeeded
                      obtain ⟨s, hs⟩ : ∃ s, altName = .str s := by
                        cases altName <;> simp [pyLower] at hlow <;> exact ⟨_, rfl⟩
                      subst hs
                      have hlows : low = .str (strLower s) := by
                        have h2 : Except.ok (PyVal.str (strLower s)) = Except.ok low := hlow
                        exact (Except.ok.inj h2).symm
                      have hlowne2 : strLower s ≠ "none" := by
                        intro hcontra
                        apply hlowne
                        rw [hlows, hcontra]
                        simp [pyValBeq]
                      -- the looked-up titles value is the invariant list
                      obtain ⟨hvals, tsl, htsl, hhead, hstr, hnodup, htail⟩ := hinv
                      rw [htsl] at hts
                      have htseq : PyVal.list tsl = ts := Option.some.inj hts
                      rw [← htseq] at hin
                      have hany : (tsl.any fun y => pyValBeq y (.str s)) = false := by
                        have h2 : Except.ok (tsl.any fun y => pyValBeq y (.str s))
                            = Except.ok false := hin
                        exact Except.ok.inj h2
                      have hnotmem : PyVal.str s ∉ tsl := by
                        intro hmem
                        have hfalse := List.any_eq_false.mp hany _ hmem
                        exact hfalse (pyValBeq_refl (.str s))
                      -- unpack pyListAppend
                      unfold pyListAppend at happ
                      rw [htsl] at happ
                      have hmd3 : dictSet md "titles" (.list (tsl ++ [.str s])) = md3 :=
                        Except.ok.inj happ
                      rw [← hmd3]
                      -- the invariant list is nonempty with head t0
                      cases tsl with
                      | nil => exact absurd hhead (by simp)
                      | cons b tl =>
                          have hb : b = t0 := Option.some.inj hhead
                          subst hb
                          constructor
                          · exact @dictSet_values (fun v => v.truthy = true) md "titles"
                              (.list ((b :: tl) ++ [.str s])) hvals (by simp [PyVal.truthy])
                          · refine ⟨(b :: tl) ++ [.str s], lookup_dictSet_self _ _ _, by simp, ?_, ?_, ?_⟩
                            · intro t ht
                              rcases List.mem_append.mp ht with hta | htb
                              · exact hstr t hta
                              · exact ⟨s, List.mem_singleton.mp htb⟩
                            · rw [List.nodup_append]
                              refine ⟨hnodup, by simp, ?_⟩
                              intro a ha hb2
                              rw [List.mem_singleton.mp hb2] at ha
                              exact hnotmem ha
                            · intro t ht
                              simp only [List.cons_append, List.drop_succ_cons,
                                List.drop_zero] at ht
                              rcases List.mem_append.mp ht with hta | htb
                              · exact htail t (by simpa using hta)
                              · rw [List.mem_singleton.mp htb]
                                exact ⟨s, rfl, hlowne2⟩

theorem normalizeDict_ok_titles (base : String) (mm : List (String × PyVal)) (ext : Bool)
    (v : PyVal) (h : normalizeDict base mm ext = .ok v) :
    ∃ md, v = .dict md ∧ TitlesOk (toUnicode (lookupD mm "title")) md := by
  unfold normalizeDict at h
  split at h
  · exact Except.noConfusion h
  · rename_i aa hpr
    unfold finishRecord at h
    split at h
    · exact Except.noConfusion h
    · rename_i md2 happ
      have hbase : TitlesOk (toUnicode (lookupD mm "title"))
          ((buildMovieData mm aa.1 aa.2
            (if ext = true then getMultImages base (.dict mm) "backdrops" "original" else [])
            base).filter fun p => p.2.truthy) := by
        constructor
        · intro p hp
          exact (List.mem_filter.mp hp).2
        · refine ⟨[toUnicode (lookupD mm "title")], filteredMD_lookup_titles _ _ _ _ _,
            rfl, ?_, by simp, by simp⟩
          intro t ht
          rw [List.mem_singleton.mp ht]
          exact ⟨pyStr (lookupD mm "title"), rfl⟩
      have hmd2 : md2 = (buildMovieData mm aa.1 aa.2
          (if ext = true then getMultImages base (.dict mm) "backdrops" "original" else [])
          base).filter fun p => p.2.truthy := by
        apply appendOriginal_of_singleton _ (toUnicode (lookupD mm "title")) _
          (filteredMD_lookup_titles _ _ _ _ _) _ happ
        intro w hw
        rw [filteredMD_lookup_original] at hw
        split at hw
        · exact (Option.some.inj hw).symm
        · exact Option.noConfusion hw
      split at h
      · rename_i am halt
        split at h
        · exact Except.noConfusion h
        · rename_i alts hit
          cases hadd : addAlternates md2 alts with
          | error e =>
              rw [hadd] at h
              exact Except.noConfusion (h : Except.error e = Except.ok v)
          | ok md3 =>
              rw [hadd] at h
              refine ⟨md3, (Except.ok.inj (h : Except.ok (PyVal.dict md3) = Except.ok v)).symm, ?_⟩
              apply addAlternates_preserves _ alts md2 md3 hadd
              rw [hmd2]
              exact hbase
      · exact Except.noConfusion h

/-- C6 (confirmed): every record the normalization pass returns is a
mapping all of whose attribute values are truthy — the falsy-filter drops
falsy attributes and the later title appends only extend `titles` with a
nonempty (hence truthy) list. -/
theorem c6_record_values_truthy :
    ∀ (base : String) (movie : PyVal) (ext : Bool) (v : PyVal),
      normalizePayload base movie ext = .ok v →
      ∃ md, v = .dict md ∧ ∀ p ∈ md, p.2.truthy = true := by
  intro base movie ext v h
  unfold normalizePayload at h
  split at h
  · rename_i mm
    obtain ⟨md, hmd, hok⟩ := normalizeDict_ok_titles base mm ext v h
    exact ⟨md, hmd, hok.1⟩
  · exact Except.noConfusion h

/-- Witness for C6: a concrete payload normalizes to a record whose
values are all truthy. -/
theorem c6_record_values_truthy_witness :
    ∃ md, normalizePayload "https://image.tmdb.org/t/p/"
        (.dict [("id", .int 1), ("title", .str "T")]) false = .ok (.dict md)
      ∧ ∀ p ∈ md, p.2.truthy = true := by
  obtain ⟨md, hmd, hp⟩ := c6_record_values_truthy "https://image.tmdb.org/t/p/"
    (.dict [("id", .int 1), ("title", .str "T")]) false _ rfl
  refine ⟨md, ?_, hp⟩
  rw [← hmd]
  rfl

/-- C7 (corrected): the emitted `titles` sequence has the original title
first, contains no duplicates, and no entry *after the first* lowercases
to "none" — the "none" filter applies only to appended alternative
titles, not to the original title itself (see the counterexample). In
particular the Matrix/None instance of the claim holds (see witness). -/
theorem c7_titles_structure :
    ∀ (base : String) (mm : List (String × PyVal)) (ext : Bool) (v : PyVal),
      normalizePayload base (.dict mm) ext = .ok v →
      ∃ md ts, v = .dict md ∧ md.lookup "titles" = some (.list ts) ∧
        ts.head? = some (toUnicode (lookupD mm "title")) ∧ ts.Nodup ∧
        (∀ t ∈ ts.drop 1, ∃ s, t = .str s ∧ strLower s ≠ "none") := by
  intro base mm ext v h
  obtain ⟨md, hmd, hvals, ts, hts, hhead, _, hnodup, htail⟩ :=
    normalizeDict_ok_titles base mm ext v h
  exact ⟨md, ts, hmd, hts, hhead, hnodup, htail⟩

/-- Witness for C7: the spec's Matrix instance — original title "Matrix"
with alternates ["Matrix", "None"] yields titles exactly ["Matrix"]:
"Matrix" appears once and "None" never. -/
theorem c7_titles_structure_witness :
    lookupPath (normalizePayload "https://image.tmdb.org/t/p/"
        (.dict [("id", .int 1), ("title", .str "Matrix"),
          ("alternative_titles", .dict [("titles", .list
            [.dict [("title", .str "Matrix")], .dict [("title", .str "None")]])])]) false)
      ["titles"] = some (.list [.str "Matrix"]) ∧
    ∃ v md ts, normalizePayload "https://image.tmdb.org/t/p/"
        (.dict [("id", .int 1), ("title", .str "Matrix"),
          ("alternative_titles", .dict [("titles", .list
            [.dict [("title", .str "Matrix")], .dict [("title", .str "None")]])])]) false
        = .ok v ∧ v = .dict md ∧ md.lookup "titles" = some (.list ts) ∧
        ts.head? = some (.str "Matrix") ∧ ts.Nodup := by
  refine ⟨rfl, ?_⟩
  obtain ⟨md, ts, hmd, hts, hhead, hnodup, htail⟩ :=
    c7_titles_structure "https://image.tmdb.org/t/p/"
      [("id", .int 1), ("title", .str "Matrix"),
        ("alternative_titles", .dict [("titles", .list
          [.dict [("title", .str "Matrix")], .dict [("title", .str "None")]])])] false _ rfl
  exact ⟨_, md, ts, rfl, hmd, hts, hhead, hnodup⟩

/-- Counterexample for C7 as stated: a payload whose title is the literal
string "None" emits titles = ["None"], which contains an entry equal to
"none" case-insensitively — the original title is not filtered. -/
theorem c7_counterexample :
    lookupPath (normalizePayload "https://image.tmdb.org/t/p/"
        (.dict [("id", .int 1), ("title", .str "None")]) false) ["titles"]
      = some (.list [.str "None"]) ∧
    strLower "None" = "none" :=
  ⟨rfl, rfl⟩

theorem parseMovie_ok_truthy_titles (base : String) (oracle : Call → PyVal) (m0 : PyVal)
    (ext : Bool) (w : PyVal) (h : (parseMovie base oracle m0 ext).1 = .ok w)
    (ht : w.truthy = true) :
    ∃ md s rest, w = .dict md ∧ md.lookup "titles" = some (.list (.str s :: rest)) := by
  unfold parseMovie at h
  split at h
  · exact Except.noConfusion h
  · simp only [request, requestData] at h
    unfold parseMovieResult at h
    split at h
    · exact Except.noConfusion h
    · split at h
      · rw [← Except.ok.inj h] at ht
        exact absurd ht (by simp [PyVal.truthy])
      · rename_i movie htr
        unfold normalizePayload at h
        split at h
        · rename_i mm
          obtain ⟨md, hmd, hvals, ts, hts, hhead, hstr, hnodup, htail⟩ :=
            normalizeDict_ok_titles base mm ext w h
          cases ts with
          | nil => exact absurd hhead (by simp)
          | cons b tl =>
              have hb : b = toUnicode (lookupD mm "title") := Option.some.inj hhead
              exact ⟨md, pyStr (lookupD mm "title"), tl, hmd, by rw [hts, hb]; rfl⟩
        · exact Except.noConfusion h

theorem searchLogCheck_ok (results : List PyVal)
    (hall : ∀ r ∈ results, ∃ md s rest, r = .dict md ∧
        md.lookup "titles" = some (.list (.str s :: rest))) :
    searchLogCheck results = .ok () := by
  induction results with
  | nil => rfl
  | cons r rest2 ih =>
      obtain ⟨md, s, restT, hr, hts⟩ := hall r (by simp)
      unfold searchLogCheck
      rw [hr]
      rw [show pyIndexV (.dict md) "titles"
          = (match md.lookup "titles" with
             | some x => Except.ok x
             | Option.none => Except.error (.keyError "titles")) from rfl]
      rw [hts]
      show (match pyIndexI (.list (.str s :: restT)) 0 with
            | .error e => .error e
            | .ok t0 => _) = Except.ok ()
      rw [show pyIndexI (.list (.str s :: restT)) 0 = Except.ok (.str s) from rfl]
      show (match pyGetD (PyVal.dict md) "year" (.int 0) with
            | .error e => .error e
            | .ok yv => _) = Except.ok ()
      rw [show pyGetD (PyVal.dict md) "year" (.int 0)
          = Except.ok ((md.lookup "year").getD (.int 0)) from rfl]
      exact ih (fun q hq => hall q (by simp [hq]))

theorem searchLoop_all_ok (base : String) (oracle : Call → PyVal) (limit : Int) :
    ∀ (items : List PyVal) (nr : Int),
      (∀ m ∈ items, ∃ w, (parseMovie base oracle m false).1 = .ok w) →
      ∃ results, (searchLoop base oracle limit items nr).1 = .ok results ∧
        ∀ r ∈ results, r.truthy = true ∧
          ∃ m ∈ items, (parseMovie base oracle m false).1 = .ok r := by
  intro items
  induction items with
  | nil =>
      intro nr _
      exact ⟨[], rfl, by simp⟩
  | cons m rest ih =>
      intro nr hall
      obtain ⟨w, hw⟩ := hall m (by simp)
      by_cases hb : nr + 1 = limit
      · refine ⟨if w.truthy then [w] else [], ?_, ?_⟩
        · simp only [searchLoop, hw, if_pos hb]
        · intro r hr
          split at hr
          · rename_i htr
            rw [List.mem_singleton.mp hr]
            exact ⟨htr, m, by simp, hw⟩
          · simp at hr
      · obtain ⟨results2, hres2, hmem2⟩ :=
          ih (nr + 1) (fun q hq => hall q (by simp [hq]))
        refine ⟨(if w.truthy then [w] else []) ++ results2, ?_, ?_⟩
        · simp only [searchLoop, hw, if_neg hb]
          rcases hEq : searchLoop base oracle limit rest (nr + 1) with ⟨r2a, r2b⟩
          rw [hEq] at hres2
          have hr2a : r2a = Except.ok results2 := hres2
          rw [hr2a]
        · intro r hr
          rcases List.mem_append.mp hr with hra | hrb
          · split at hra
            · rename_i htr
              rw [List.mem_singleton.mp hra]
              exact ⟨htr, m, by simp, hw⟩
            · simp at hra
          · obtain ⟨htr, m2, hm2, hp2⟩ := hmem2 r hrb
            exact ⟨htr, m2, by simp [hm2], hp2⟩

/-- C1 (corrected): `search` never propagates a failure of the remote
fetch stage — that stage is wrapped in a catch-all — and returns normally
(a record list or `false`) whenever the fetched result list is iterable
and every entry's normalization returns without raising. The guard around
the per-entry loop catches only `SyntaxError`, so other normalization
exceptions (such as the `KeyError` of the counterexample) do propagate to
the caller, which is what the claim as stated rules out. -/
theorem c1_search_returns_normally :
    ∀ (apiKey base : String) (oracle : Call → PyVal) (ny : PyVal) (q : String) (limit : Int),
      ((searchRawStage oracle ny q limit).1.truthy = true →
        ∃ items, pyIter (searchRawStage oracle ny q limit).1 = .ok items ∧
          ∀ m ∈ items, ∃ w, (parseMovie base oracle m false).1 = .ok w) →
      ∃ r, (search apiKey base oracle ny q limit).1 = .ok r := by
  intro apiKey base oracle ny q limit hyp
  unfold search
  by_cases hk : apiKey = ""
  · rw [if_pos hk]
    exact ⟨.bool false, rfl⟩
  · rw [if_neg hk]
    unfold searchAfterRaw
    by_cases htr : (searchRawStage oracle ny q limit).1.truthy = true
    · rw [if_neg (fun hc => hc htr)]
      obtain ⟨items, hit, hall⟩ := hyp htr
      rw [hit]
      show ∃ r, (searchAfterLoop (searchRawStage oracle ny q limit).2
        (searchLoop base oracle limit items 0)).1 = Except.ok r
      obtain ⟨results, hres, hmem⟩ := searchLoop_all_ok base oracle limit items 0 hall
      have hlog : searchLogCheck results = .ok () := by
        apply searchLogCheck_ok
        intro r hr
        obtain ⟨htru, m2, hm2, hp2⟩ := hmem r hr
        exact parseMovie_ok_truthy_titles base oracle m2 false r hp2 htru
      unfold searchAfterLoop
      simp only [hres, hlog]
      exact ⟨.list results, rfl⟩
    · rw [if_pos htr]
      exact ⟨.list [], rfl⟩

/-- Oracle for the C1 witness: one search hit whose payload normalizes
cleanly. -/
def c1goodOracle : Call → PyVal := fun c =>
  if c.call = "search/movie" then .dict [("results", .list [.dict [("id", .int 1)]])]
  else if c.call = "movie/1" then .dict [("id", .int 1), ("title", .str "A")]
  else PyVal.none

/-- Witness for C1: with an iterable hit list whose one entry normalizes
cleanly, `search` returns normally. -/
theorem c1_search_returns_normally_witness :
    ∃ r, (search "k" "b" c1goodOracle (.dict [("name", .str "q")]) "q" 3).1 = .ok r := by
  apply c1_search_returns_normally
  intro _
  refine ⟨[.dict [("id", .int 1)]], rfl, ?_⟩
  intro m hm
  rw [List.mem_singleton.mp hm]
  exact ⟨_, rfl⟩

/-- Oracle for the C1 counterexample: the re-fetched payload carries an
empty-string title. -/
def c1badOracle : Call → PyVal := fun c =>
  if c.call = "search/movie" then .dict [("results", .list [.dict [("id", .int 1)]])]
  else if c.call = "movie/1" then .dict [("id", .int 1), ("title", .str "")]
  else PyVal.none

/-- Counterexample for C1 as stated: a fetch outcome whose payload title
is the empty string makes `parseMovie` drop `original_title` in the falsy
filter and then raise `KeyError` on `movie_data['original_title']` (line
165); `search` catches only `SyntaxError` around the loop, so the
exception propagates to the caller instead of search returning a sequence
or `false`. -/
theorem c1_counterexample :
    (search "k" "b" c1badOracle (.dict [("name", .str "q")]) "q" 3).1
      = .error (.keyError "original_title") := rfl
